import Mathlib

/-!
Verification of the document structure inference pipeline of `process_pdfs.py`.

Strings are modelled as `List Char` (Python `str` is a sequence of code points,
so Python `len` is `List.length`).  The synthesized emphasis scores ("font
sizes") are integer-valued at every step of the source, so they are modelled as
`ℤ`.  The confidence arithmetic of the source uses only the decimal constants
`0.5, 0.3, 0.2, 0.1, 0.7, 1.0`; confidences are therefore modelled exactly in
tenths (`0.5` becomes `5`, the cap `1.0` becomes `10`, the filter bound `0.7`
becomes `7`), an order-preserving rescaling by 10 under which every comparison
of the source is mirrored.  No claim in scope depends on IEEE-754 rounding of
these sums.  Regular expressions of the source are
translated into explicit character-level functions; each definition carries the
regex it embeds.  `unicodedata.normalize('NFKC', ...)` is modelled as the
identity: all inputs considered are NFKC-normal, and the pipeline never relies
on a non-trivial normalization for the properties below.
-/

namespace ProcessPdfs

/-- Python whitespace (the ASCII part, which is also what `\s` matches on the
inputs in scope): space, tab, newline, carriage return, vertical tab, form feed. -/
def isPySpace (c : Char) : Bool :=
  c = ' ' || c = '\t' || c = '\n' || c = '\r' || c = '\x0b' || c = '\x0c'

/-- ASCII lower-casing, the effect of Python `str.lower` / `re.IGNORECASE` on
the ASCII letters (non-ASCII characters in scope are caseless). -/
def asciiLower (c : Char) : Char :=
  if 'A' ≤ c ∧ c ≤ 'Z' then Char.ofNat (c.toNat + 32) else c

/-- Lower-case a whole string. -/
def lowerL (l : List Char) : List Char := l.map asciiLower

/-- `isPrefixL p l`: `p` is a prefix of `l` (Python `str.startswith` /
an anchored `re.match` of a literal word). -/
def isPrefixL : List Char → List Char → Bool
  | [], _ => true
  | _ :: _, [] => false
  | a :: as, b :: bs => a = b && isPrefixL as bs

/-- `isSuffixL p l`: `p` is a suffix of `l` (an unanchored `word$` search). -/
def isSuffixL (p l : List Char) : Bool := isPrefixL p.reverse l.reverse

/-- `isSubL p l`: `p` occurs as a contiguous substring of `l`
(Python `p in l`). -/
def isSubL (p : List Char) : List Char → Bool
  | [] => p.isEmpty
  | c :: t => isPrefixL p (c :: t) || isSubL p t

/-- Python `str.strip()`: remove leading and trailing whitespace. -/
def pyStrip (l : List Char) : List Char :=
  ((l.dropWhile isPySpace).reverse.dropWhile isPySpace).reverse

/-- Remove trailing whitespace only (a `\s*$` tail of a search pattern). -/
def dropTrailingWs (l : List Char) : List Char :=
  (l.reverse.dropWhile isPySpace).reverse

/-- Remove trailing ASCII digits (a `\d*` component read from the right). -/
def dropTrailingDigits (l : List Char) : List Char :=
  (l.reverse.dropWhile Char.isDigit).reverse

/-- The last character of the string, if any (used for `[...]$` searches). -/
def lastChar (l : List Char) : Option Char := l.getLast?

/-- `is_japanese_text`: some character lies in the Hiragana, Katakana or CJK
Unified Ideograph ranges used by the source. -/
def isJapaneseChar (c : Char) : Bool :=
  (0x3040 ≤ c.toNat && c.toNat ≤ 0x309F) ||
  (0x30A0 ≤ c.toNat && c.toNat ≤ 0x30FF) ||
  (0x4E00 ≤ c.toNat && c.toNat ≤ 0x9FAF)

/-- `PDFProcessor.is_japanese_text`. -/
def is_japanese_text (l : List Char) : Bool := l.any isJapaneseChar

/-- `PDFProcessor.is_incomplete_line`:
`re.search(r'[,、]$|(?:and|or|of|in|at|to|for|with|by)$', line, re.IGNORECASE)`,
or length < 20 without `[.!?。！？]$`, or a trailing hyphen. -/
def is_incomplete_line (l : List Char) : Bool :=
  (isSuffixL [','] l || isSuffixL ['、'] l ||
    (["and", "or", "of", "in", "at", "to", "for", "with", "by"].any
      (fun w => isSuffixL w.toList (lowerL l)))) ||
  (l.length < 20 &&
    !((['.', '!', '?', '。', '！', '？'].any (fun c => lastChar l = some c)))) ||
  isSuffixL ['-'] l

/-- `PDFProcessor.is_continuation_line`: starts with a lowercase ASCII letter
(`re.match(r'^[a-z]', line)`, no flags), or starts (case-insensitively) with a
continuation word. -/
def is_continuation_line (l : List Char) : Bool :=
  (match l with
   | c :: _ => 'a' ≤ c && c ≤ 'z'
   | [] => false) ||
  (["and", "or", "but", "however", "therefore", "thus", "also", "furthermore"].any
    (fun w => isPrefixL w.toList (lowerL l)))

/-- `PDFProcessor.should_merge_japanese_lines`. -/
def should_merge_japanese_lines (l1 l2 : List Char) : Bool :=
  (is_japanese_text l1 || is_japanese_text l2) &&
  (!(['。', '！', '？', '、'].any (fun c => lastChar l1 = some c)) && l1.length < 50)

/-- `PDFProcessor.should_merge_address_lines` (the second argument is unused in
the source as well).  The four searched patterns, all `re.IGNORECASE`:
`\d+\s*$`, `[A-Za-z]+\s*$`, the street-suffix words followed by `\s*$`, and the
unit words followed by `\s*\d*\s*$`. -/
def should_merge_address_lines (l1 _l2 : List Char) : Bool :=
  let r := dropTrailingWs l1
  (match lastChar r with
   | some c => c.isDigit
   | none => false) ||
  (match lastChar r with
   | some c => c.isAlpha
   | none => false) ||
  (["street", "st", "avenue", "ave", "road", "rd", "drive", "dr", "lane", "ln",
    "boulevard", "blvd"].any (fun w => isSuffixL w.toList (lowerL r))) ||
  (["suite", "ste", "unit", "apt", "apartment"].any
    (fun w => isSuffixL w.toList (lowerL (dropTrailingWs (dropTrailingDigits r)))))

/-- One iteration of the loop body of `PDFProcessor.merge_fragmented_lines`:
state is `(merged_lines, current_line)`. -/
def merge_step (acc : List (List Char) × List Char) (rawLine : List Char) :
    List (List Char) × List Char :=
  let merged := acc.1
  let current := acc.2
  let line := pyStrip rawLine
  if line.isEmpty then
    if !current.isEmpty then (merged ++ [current], []) else (merged, [])
  else if !current.isEmpty &&
      (is_incomplete_line current || is_continuation_line line ||
       should_merge_japanese_lines current line ||
       should_merge_address_lines current line) then
    let sep : List Char :=
      if is_japanese_text current || is_japanese_text line then [] else [' ']
    (merged, current ++ sep ++ line)
  else if !current.isEmpty then (merged ++ [current], line)
  else (merged, line)

/-- `PDFProcessor.merge_fragmented_lines`: fold the loop body over the lines,
then flush the remaining accumulator. -/
def merge_fragmented_lines (lines : List (List Char)) : List (List Char) :=
  let st := lines.foldl merge_step ([], [])
  if !st.2.isEmpty then st.1 ++ [st.2] else st.1

/-- Split a string into the maximal runs of characters satisfying `p`
(accumulator-passing one-pass scan; `acc` holds the reversed current run). -/
def runsGo (p : Char → Bool) (acc : List Char) : List Char → List (List Char)
  | [] => if acc.isEmpty then [] else [acc.reverse]
  | c :: t =>
    if p c then runsGo p (c :: acc) t
    else if acc.isEmpty then runsGo p [] t
    else acc.reverse :: runsGo p [] t

/-- Python `max` of two integers, written with the core decidable order so
that it evaluates by kernel reduction. -/
def maxZ (a b : ℤ) : ℤ := if a ≤ b then b else a

/-- Python `min` of two integers. -/
def minZ (a b : ℤ) : ℤ := if a ≤ b then a else b

/-- Python `str.split()` (also the token decomposition used to translate the
regex `^[A-Z][a-z]+(?:\s+[A-Z][a-z]+){1,3}$`): maximal runs of non-whitespace
characters, leading/trailing whitespace ignored. -/
def wsTokens (l : List Char) : List (List Char) := runsGo (fun c => !isPySpace c) [] l

/-- Python `\w` on the scripts this program targets: ASCII alphanumerics,
underscore, and the CJK ranges of `is_japanese_text` (all of which are word
characters for Python's Unicode `\w`). -/
def pyWordChar (c : Char) : Bool := c.isAlpha || c.isDigit || c = '_' || isJapaneseChar c

/-- Maximal runs of word characters (`\w+`), used for `\b...\b` matches. -/
def wordRuns (l : List Char) : List (List Char) := runsGo pyWordChar [] l

/-- A word run matching `[A-Z][a-z]+` exactly.  `re.findall(r'\b[A-Z][a-z]+\b', text)`
finds precisely the maximal `\w`-runs of this exact shape (the `\b` anchors force
the match to cover a whole run, and `[a-z]+` with backtracking cannot stop short
of a word character). -/
def titleCaseRun (w : List Char) : Bool :=
  match w with
  | c :: rest => c.isUpper && !rest.isEmpty && rest.all Char.isLower
  | [] => false

/-- `len(re.findall(r'\b[A-Z][a-z]+\b', text))`. -/
def countTitleCaseWords (l : List Char) : Nat :=
  ((wordRuns l).filter titleCaseRun).length

/-- Consume `\d+` (at least one ASCII digit, maximal), returning the rest. -/
def afterDigits1 : List Char → Option (List Char)
  | c :: t => if c.isDigit then some (t.dropWhile Char.isDigit) else none
  | [] => none

/-- One-pass scan consuming the rest of `\d+(?:\.\d+)*\.?` after the first
digit.  State `inDigits = true`: the last consumed character was a digit (a
following `'.'` opens a new group or is taken by the final `\.?`);
`inDigits = false`: a `'.'` was just consumed, so only a digit may extend the
match.  This is exactly the greedy behaviour of the regex: no alternative ever
requires un-consuming a character. -/
def numTailGo (inDigits : Bool) : List Char → List Char
  | [] => []
  | c :: t =>
    if c.isDigit then numTailGo true t
    else if inDigits && c = '.' then numTailGo false t
    else c :: t

/-- Consume `\d+(?:\.\d+)*\.?` (the shared numbering prefix of the source's
numbering regexes), returning the rest. -/
def numPre (l : List Char) : Option (List Char) :=
  match l with
  | c :: t => if c.isDigit then some (numTailGo true t) else none
  | [] => none

/-- Consume `\s+` (at least one whitespace character, maximal). -/
def wsThen : List Char → Option (List Char)
  | c :: t => if isPySpace c then some (t.dropWhile isPySpace) else none
  | [] => none

/-- `re.match(r'^\d+(?:\.\d+)*\.?\s+', text)` succeeds. -/
def numberedLead (l : List Char) : Bool :=
  match numPre l with
  | some r => (wsThen r).isSome
  | none => false

/-- `re.search(r'^[「『].*[」』]$', text)` succeeds (`.` does not match a newline). -/
def jpQuoteWrapped (t : List Char) : Bool :=
  match t with
  | c :: rest =>
    (c = '「' || c = '『') &&
    (match rest.getLast? with
     | some d => (d = '」' || d = '』') && rest.dropLast.all (fun e => e ≠ '\n')
     | none => false)
  | [] => false

/-- Python `str.isupper` over the cased characters in scope (ASCII letters):
no lowercase letter and at least one uppercase letter. -/
def pyIsUpper (l : List Char) : Bool :=
  l.any Char.isUpper && !l.any Char.isLower

/-- The structural-keyword list of `estimate_font_size_improved`. -/
def heading_keywords : List String :=
  ["introduction", "conclusion", "summary", "overview", "background",
   "methodology", "results", "discussion", "references", "appendix",
   "chapter", "section", "part", "abstract", "acknowledgments"]

/-- `PDFProcessor.estimate_font_size_improved`.  The float score is an
integer-valued rational at every step; the two ratio comparisons
(`len(title_case_words) >= len(text.split()) * 0.7` and
`punct_ratio > 0.1`) are translated to the exact rational comparisons, which
agree with the float ones for all list lengths in scope. -/
def estimate_font_size_improved (text : List Char) : ℤ :=
  let score : ℤ := 10
  let score := if text.length < 20 then score + 3
    else if text.length < 40 then score + 2
    else if text.length < 60 then score + 1
    else if 200 < text.length then score - 1
    else score
  let score := if pyIsUpper text && text.length < 80 then score + 4 else score
  let score := if numberedLead text then score + 3 else score
  let score := if 7 * (wsTokens text).length ≤ 10 * countTitleCaseWords text then score + 2 else score
  let score := if heading_keywords.any (fun w => isSubL w.toList (lowerL text)) then score + 2 else score
  let score := if ["Chapter", "Section", "Part", "Appendix"].any (fun w => isPrefixL w.toList text)
    then score + 3 else score
  let score := if (match text with
    | c :: d :: _ => ['•', '▪', '▫', '◦', '-', '*'].contains c && isPySpace d
    | _ => false) then score + 1 else score
  let score := if is_japanese_text text then
      (let s2 := if text.any (fun c => ['第', '章', '節', '項', '目'].contains c) then score + 3 else score
       if jpQuoteWrapped text then s2 + 2 else s2)
    else score
  let score := if 150 < text.length then score - 2 else score
  let score := if text.length < 10 * (text.filter (fun c => ['.', ',', ';', ':', '!', '?'].contains c)).length
    then score - 1 else score
  maxZ 8 (minZ 18 score)

/-- The threshold record returned by `calculate_dynamic_font_thresholds`. -/
structure FontThresholds where
  H1 : ℤ
  H2 : ℤ
  H3 : ℤ
deriving DecidableEq

/-- Insert into a strictly descending list of distinct values, keeping it so. -/
def insertDesc (x : ℤ) : List ℤ → List ℤ
  | [] => [x]
  | y :: ys => if y < x then x :: y :: ys else if x = y then y :: ys else y :: insertDesc x ys

/-- `sorted(set(l), reverse=True)`: the distinct values of `l` in strictly
descending order. -/
def sortedDistinctDesc (l : List ℤ) : List ℤ := l.foldr insertDesc []

/-- Python `max` over a list (total with junk value on `[]`, which the source
never reaches: it is only applied to a non-empty list). -/
def pyMax : List ℤ → ℤ
  | [] => 0
  | a :: t => t.foldl maxZ a

/-- `PDFProcessor.calculate_dynamic_font_thresholds`.  In the source the input
list is reassigned to `sorted(set(font_sizes), reverse=True)`; when at least
three distinct sizes exist the thresholds are its first three entries (the two
inner conditionals of that branch are always true there), otherwise
`max, max-1, max-2`. -/
def calculate_dynamic_font_thresholds (font_sizes : List ℤ) : FontThresholds :=
  if font_sizes.isEmpty then { H1 := 14, H2 := 12, H3 := 11 }
  else
    match sortedDistinctDesc font_sizes with
    | a :: b :: c :: _ => { H1 := a, H2 := b, H3 := c }
    | _ =>
      let m := pyMax (sortedDistinctDesc font_sizes)
      { H1 := m, H2 := m - 1, H3 := m - 2 }

/-- The thresholds as the claim words them (the spec side of the refinement
comparison): H1 = the largest distinct score, H2 = the second-largest distinct
score (or H1 − 1 when fewer than two distinct scores exist), H3 = the
third-largest distinct score (or H2 − 1 when fewer than three distinct scores
exist); `{H1:14, H2:12, H3:11}` for the empty list. -/
def spec_dynamic_font_thresholds (font_sizes : List ℤ) : FontThresholds :=
  match sortedDistinctDesc font_sizes with
  | [] => { H1 := 14, H2 := 12, H3 := 11 }
  | [a] => { H1 := a, H2 := a - 1, H3 := a - 1 - 1 }
  | [a, b] => { H1 := a, H2 := b, H3 := b - 1 }
  | a :: b :: c :: _ => { H1 := a, H2 := b, H3 := c }

/-- Consume a case-insensitive literal word prefix, returning the rest. -/
def dropPrefixCI : List Char → List Char → Option (List Char)
  | [], l => some l
  | _ :: _, [] => none
  | p :: ps, c :: cs => if asciiLower c = asciiLower p then dropPrefixCI ps cs else none

/-- `\s+\d+` as a prefix of the rest of a match. -/
def wsDigitAfter (r : List Char) : Bool :=
  match wsThen r with
  | some (c :: _) => c.isDigit
  | _ => false

/-- `re.match(r'^(?:Chapter|CHAPTER|第\d+章)\s+\d+', text, re.IGNORECASE)`. -/
def matchChapterNum (l : List Char) : Bool :=
  (match dropPrefixCI "chapter".toList l with
   | some r => wsDigitAfter r
   | none => false) ||
  (match l with
   | '第' :: r =>
     (match afterDigits1 r with
      | some ('章' :: r2) => wsDigitAfter r2
      | _ => false)
   | _ => false)

/-- `re.match(r'^\d+\.\s+[A-Z]', text, re.IGNORECASE)` (the class `[A-Z]`
matches any ASCII letter under `IGNORECASE`). -/
def matchNumDotCap (l : List Char) : Bool :=
  match afterDigits1 l with
  | some ('.' :: r) =>
    (match wsThen r with
     | some (c :: _) => c.isAlpha
     | _ => false)
  | _ => false

/-- `re.match(r'^[A-Z][A-Z\s]{10,}$', text, re.IGNORECASE)`: a letter followed
by at least ten letters/whitespace up to the end. -/
def matchAllCapsRun (l : List Char) : Bool :=
  match l with
  | c :: t => c.isAlpha && 10 ≤ t.length && t.all (fun d => d.isAlpha || isPySpace d)
  | [] => false

/-- `re.match(r'^(?:INTRODUCTION|CONCLUSION|SUMMARY|ABSTRACT|REFERENCES)$', text, re.IGNORECASE)`. -/
def matchCanonicalSection (l : List Char) : Bool :=
  ["introduction", "conclusion", "summary", "abstract", "references"].any
    (fun w => lowerL l = w.toList)

/-- `re.match(r'^\d+\.\d+\s+', text, re.IGNORECASE)`. -/
def matchSubNum (l : List Char) : Bool :=
  match afterDigits1 l with
  | some ('.' :: r) =>
    (match afterDigits1 r with
     | some r2 => (wsThen r2).isSome
     | none => false)
  | _ => false

/-- `re.match(r'^[A-Z][a-z]+(?:\s+[A-Z][a-z]+){1,3}$', text, re.IGNORECASE)`:
under `IGNORECASE` both classes are any ASCII letter, so the string must be
two to four whitespace-separated all-letter tokens of length at least two,
starting and ending with a letter. -/
def matchTitleCaseWords (l : List Char) : Bool :=
  (match l with
   | c :: _ => c.isAlpha
   | [] => false) &&
  (match l.getLast? with
   | some c => c.isAlpha
   | none => false) &&
  (let toks := wsTokens l
   2 ≤ toks.length && toks.length ≤ 4 && toks.all (fun w => 2 ≤ w.length && w.all Char.isAlpha))

/-- `re.match(r'^(?:Background|Methodology|Results|Discussion)', text, re.IGNORECASE)`. -/
def matchNamedSubsection (l : List Char) : Bool :=
  ["background", "methodology", "results", "discussion"].any
    (fun w => isPrefixL w.toList (lowerL l))

/-- `re.match(r'^\d+\.\d+\.\d+\s+', text, re.IGNORECASE)`. -/
def matchSubSubNum (l : List Char) : Bool :=
  match afterDigits1 l with
  | some ('.' :: r) =>
    (match afterDigits1 r with
     | some ('.' :: r2) =>
       (match afterDigits1 r2 with
        | some r3 => (wsThen r3).isSome
        | none => false)
     | _ => false)
  | _ => false

/-- `re.match(r'^[a-z]\)\s+', text, re.IGNORECASE)`. -/
def matchLetterItem (l : List Char) : Bool :=
  match l with
  | c :: ')' :: r =>
    c.isAlpha &&
    (match r with
     | d :: _ => isPySpace d
     | [] => false)
  | _ => false

/-- `re.match(r'^[•▪▫◦]\s+[A-Z]', text, re.IGNORECASE)`. -/
def matchBulletCap (l : List Char) : Bool :=
  match l with
  | c :: t =>
    (c = '•' || c = '▪' || c = '▫' || c = '◦') &&
    (match wsThen t with
     | some (d :: _) => d.isAlpha
     | _ => false)
  | [] => false

/-- `PDFProcessor.classify_heading_by_pattern_improved`: the first matching
pattern list (level 1, then 2, then 3) wins. -/
def classify_heading_by_pattern_improved (text : List Char) : Option Nat :=
  if matchChapterNum text || matchNumDotCap text || matchAllCapsRun text || matchCanonicalSection text
    then some 1
  else if matchSubNum text || matchTitleCaseWords text || matchNamedSubsection text
    then some 2
  else if matchSubSubNum text || matchLetterItem text || matchBulletCap text
    then some 3
  else none

/-- Major-section keywords of `classify_heading_by_content`. -/
def major_keywords : List String :=
  ["introduction", "background", "literature review", "methodology",
   "results", "discussion", "conclusion", "summary", "abstract",
   "references", "bibliography", "appendix", "acknowledgments"]

/-- Minor-section keywords of `classify_heading_by_content`. -/
def minor_keywords : List String :=
  ["overview", "approach", "analysis", "findings", "implications",
   "limitations", "future work", "related work", "case study"]

/-- `PDFProcessor.classify_heading_by_content`.  The final branch evaluates
`text[0]`, which raises `IndexError` on the empty string (`len('') < 50` holds,
so the subscript is reached); this is modelled by the `Except` error. -/
def classify_heading_by_content (text : List Char) : Except String (Option Nat) :=
  let text_lower := lowerL text
  if major_keywords.any (fun w => isSubL w.toList text_lower) then .ok (some 1)
  else if minor_keywords.any (fun w => isSubL w.toList text_lower) then .ok (some 2)
  else if text.length < 50 then
    match text with
    | [] => .error "string index out of range"
    | c :: _ => .ok (if c.isUpper then some 3 else none)
  else .ok none

/-- The inline font-size classification of `classify_heading_improved`
(`font_level`). -/
def font_size_level (font_size : ℤ) (th : FontThresholds) : Option Nat :=
  if th.H1 ≤ font_size then some 1
  else if th.H2 ≤ font_size then some 2
  else if th.H3 ≤ font_size then some 3
  else none

/-- `PDFProcessor.classify_heading_improved`: all three classifiers are
computed (so an exception of the content classifier propagates), then the
priority chain pattern > font > content picks the answer. -/
def classify_heading_improved (text : List Char) (font_size : ℤ) (th : FontThresholds) :
    Except String (Option Nat) :=
  let pattern_level := classify_heading_by_pattern_improved text
  let font_level := font_size_level font_size th
  match classify_heading_by_content text with
  | .error e => .error e
  | .ok content_level =>
    .ok (match pattern_level with
         | some l => some l
         | none =>
           match font_level with
           | some l => some l
           | none => content_level)

/-- `PDFProcessor.calculate_heading_confidence`, in tenths: the source's
`0.5 + 0.3/0.2/0.1 + 0.2/0.1 + 0.2 + 0.3, min 1.0` becomes
`5 + 3/2/1 + 2/1 + 2 + 3, min 10` (an exact rescaling by 10). -/
def calculate_heading_confidence (text : List Char) (font_size : ℤ) (th : FontThresholds) : ℤ :=
  let confidence : ℤ := 5
  let confidence := if th.H1 ≤ font_size then confidence + 3
    else if th.H2 ≤ font_size then confidence + 2
    else if th.H3 ≤ font_size then confidence + 1
    else confidence
  let confidence := if text.length < 30 then confidence + 2
    else if text.length < 60 then confidence + 1
    else confidence
  let confidence := if (match afterDigits1 text with
    | some ('.' :: _) => true
    | _ => false) then confidence + 2 else confidence
  let confidence := if pyIsUpper text && text.length < 50 then confidence + 3 else confidence
  minZ 10 confidence

/-- The punctuation kept by the artifact-removal step of
`clean_heading_text_improved`
(`re.sub(r'[^\w\s\-.,;:()[\]{}\'\"!?/\\&@#$%^*+=<>|~`]', ' ', text)`). -/
def allowedPunct : List Char :=
  ['-', '.', ',', ';', ':', '(', ')', '[', ']', '\x7b', '\x7d', '\x27', '\x22',
   '!', '?', '/', '\\', '&', '@', '#', '$', '%', '^', '*', '+', '=', '<', '>',
   '|', '~', '\x60']

/-- One character of the artifact-removal substitution: characters outside
`\w`, `\s` and the safe punctuation set become a space. -/
def cleanCharArtifact (c : Char) : Char :=
  if pyWordChar c || isPySpace c || allowedPunct.contains c then c else ' '

/-- `re.match(r'^\d+(?:\.\d+)*\.?\s+[A-Z]', text)` (no flags: `[A-Z]` is
strictly uppercase here). -/
def matchesNumberedCap (l : List Char) : Bool :=
  match numPre l with
  | some r =>
    (match wsThen r with
     | some (c :: _) => c.isUpper
     | _ => false)
  | none => false

/-- `re.sub(r'^\d+(?:\.\d+)*\.?\s*', '', text)`. -/
def stripNumbering (l : List Char) : List Char :=
  match numPre l with
  | some r => r.dropWhile isPySpace
  | none => l

/-- `re.sub(r'^[•▪▫◦\-\*]\s*', '', text)`. -/
def stripBullet (l : List Char) : List Char :=
  match l with
  | c :: t => if ['•', '▪', '▫', '◦', '-', '*'].contains c then t.dropWhile isPySpace else l
  | [] => []

/-- Replacement text for a maximal run of `n` characters `d` under
`re.sub(r'[d]{k,}', repl, ...)`: runs of length at least `k` become `repl`,
shorter runs are kept as they are. -/
def runOut (k : Nat) (d : Char) (repl : List Char) (n : Nat) : List Char :=
  if k ≤ n then repl else List.replicate n d

/-- One-pass scan for collapsing maximal runs of the character `d`:
`n` counts the dots/dashes of the current run. -/
def collapseRunGo (k : Nat) (d : Char) (repl : List Char) (n : Nat) : List Char → List Char
  | [] => runOut k d repl n
  | c :: t =>
    if c = d then collapseRunGo k d repl (n + 1) t
    else runOut k d repl n ++ (c :: collapseRunGo k d repl 0 t)

/-- `re.sub(r'[.]{3,}', '...', text)`: collapse every maximal run of at least
three dots to an ellipsis. -/
def collapseDots (l : List Char) : List Char :=
  collapseRunGo 3 '.' ['.', '.', '.'] 0 l

/-- `re.sub(r'[-]{2,}', '--', text)`: collapse every maximal run of at least
two dashes to a double dash. -/
def collapseDashes (l : List Char) : List Char :=
  collapseRunGo 2 '-' ['-', '-'] 0 l

/-- `re.sub(r'\s+', ' ', text)`: collapse every maximal whitespace run to one
space (`inWs` records that the single space of the current run was already
emitted). -/
def collapseWsGo (inWs : Bool) : List Char → List Char
  | [] => []
  | c :: t =>
    if isPySpace c then
      if inWs then collapseWsGo true t else ' ' :: collapseWsGo true t
    else c :: collapseWsGo false t

/-- `re.sub(r'\s+', ' ', text)`. -/
def collapseWs (l : List Char) : List Char := collapseWsGo false l

/-- `re.sub(r'[.,;:]+$', '', text)`: drop the trailing run of light
punctuation. -/
def dropTrailingLightPunct (l : List Char) : List Char :=
  (l.reverse.dropWhile (fun c => ['.', ',', ';', ':'].contains c)).reverse

/-- `re.sub(r'^[「『]|[」』]$', '', text)`: one leading opening quote bracket
and one trailing closing quote bracket are removed (both alternatives are
matched against the original string in a single pass). -/
def stripJpQuotes (t : List Char) : List Char :=
  let t1 := match t with
    | c :: rest => if c = '「' || c = '『' then rest else t
    | [] => []
  match t1.getLast? with
  | some d => if d = '」' || d = '』' then t1.dropLast else t1
  | none => t1

/-- `PDFProcessor.clean_heading_text_improved`.  The NFKC normalization is
modelled as the identity (inputs in scope are NFKC-normal); the remaining
steps follow the source line by line (`clean_steps` is the part before the
final length gate). -/
def clean_steps (text : List Char) : List Char :=
  let t1 := text.map cleanCharArtifact
  let t2 := if matchesNumberedCap t1 then t1 else stripNumbering t1
  let t3 := stripBullet t2
  let t4 := collapseDots t3
  let t5 := collapseDashes t4
  let t6 := collapseWs t5
  let t7 := pyStrip t6
  let t8 := dropTrailingLightPunct t7
  if is_japanese_text t8 then stripJpQuotes t8 else t8

/-- `PDFProcessor.clean_heading_text_improved` (continued): the final length
gate inspects the text before the closing `strip()`. -/
def clean_heading_text_improved (text : List Char) : List Char :=
  if text.isEmpty then []
  else
    let t9 := clean_steps text
    if t9.length < 2 ∨ 200 < t9.length then [] else pyStrip t9

/-- Decidable equality for `Except`, needed to evaluate concrete runs of the
fallible pipeline stages. -/
instance {ε α : Type} [DecidableEq ε] [DecidableEq α] : DecidableEq (Except ε α) := fun x y =>
  match x, y with
  | .error e, .error f =>
    if h : e = f then .isTrue (h ▸ rfl)
    else .isFalse (fun hh => h (Except.error.inj hh))
  | .ok a, .ok b =>
    if h : a = b then .isTrue (h ▸ rfl)
    else .isFalse (fun hh => h (Except.ok.inj hh))
  | .error _, .ok _ => .isFalse (fun hh => Except.noConfusion hh)
  | .ok _, .error _ => .isFalse (fun hh => Except.noConfusion hh)

/-- A text element of a page (`{"text": ..., "font_size": ...}`; the constant
`font`, `flags` and `bbox` fields carry no information). -/
structure TextElement where
  text : List Char
  font_size : ℤ
deriving DecidableEq

/-- One page of `pages_data`. -/
structure PageData where
  page_num : ℤ
  text_elements : List TextElement
deriving DecidableEq

/-- A heading candidate as built by `detect_headings`. -/
structure HeadingCandidate where
  title : List Char
  level : Nat
  page : ℤ
  confidence : ℤ
  original_text : List Char
deriving DecidableEq

/-- A final outline entry (confidence and original text stripped). -/
structure OutlineEntry where
  title : List Char
  level : Nat
  page : ℤ
deriving DecidableEq

/-- The per-element body of the `detect_headings` loop: skip short lines,
classify, clean, and keep the candidate only if the cleaned title is non-empty
and longer than two characters.  A (never reached in the pipeline) exception of
the classifier propagates. -/
def candidate_of_element (th : FontThresholds) (page : ℤ) (e : TextElement) :
    Except String (Option HeadingCandidate) :=
  let text := pyStrip e.text
  if text.isEmpty ∨ text.length < 3 then .ok none
  else
    match classify_heading_improved text e.font_size th with
    | .error s => .error s
    | .ok none => .ok none
    | .ok (some lvl) =>
      let clean_text := clean_heading_text_improved text
      if ¬clean_text.isEmpty ∧ 2 < clean_text.length then
        .ok (some
          { title := clean_text, level := lvl, page := page,
            confidence := calculate_heading_confidence text e.font_size th,
            original_text := text })
      else .ok none

/-- The `detect_headings` loop over one page's elements. -/
def candidates_of_elements (th : FontThresholds) (page : ℤ) :
    List TextElement → Except String (List HeadingCandidate)
  | [] => .ok []
  | e :: es =>
    match candidate_of_element th page e with
    | .error s => .error s
    | .ok o =>
      match candidates_of_elements th page es with
      | .error s => .error s
      | .ok rest =>
        .ok (match o with
             | some c => c :: rest
             | none => rest)

/-- The `detect_headings` loop over all pages. -/
def detect_headings_candidates (th : FontThresholds) :
    List PageData → Except String (List HeadingCandidate)
  | [] => .ok []
  | p :: ps =>
    match candidates_of_elements th p.page_num p.text_elements with
    | .error s => .error s
    | .ok cs =>
      match detect_headings_candidates th ps with
      | .error s => .error s
      | .ok rest => .ok (cs ++ rest)

/-- One step of the duplicate-removal dictionary of
`filter_and_rank_headings_improved`: keyed by the exact `(title, page)` pair,
an existing entry is replaced in place when the new confidence is strictly
higher, otherwise the new item is appended (Python dicts preserve insertion
order). -/
def update_seen (seen : List HeadingCandidate) (item : HeadingCandidate) :
    List HeadingCandidate :=
  if seen.any (fun s => decide (s.title = item.title ∧ s.page = item.page)) then
    seen.map (fun s =>
      if s.title = item.title ∧ s.page = item.page ∧ s.confidence < item.confidence
      then item else s)
  else seen ++ [item]

/-- Stable insertion into a sorted list: `x` is placed before the first element
it compares `le` to. -/
def insertLe {α : Type} (le : α → α → Bool) (x : α) : List α → List α
  | [] => [x]
  | y :: ys => if le x y then x :: y :: ys else y :: insertLe le x ys

/-- Stable insertion sort; for a total preorder `le` this computes the same
list as Python's stable `list.sort`. -/
def insSort {α : Type} (le : α → α → Bool) : List α → List α
  | [] => []
  | x :: xs => insertLe le x (insSort le xs)

/-- The sort key of the reducer: `(page ascending, confidence descending)`. -/
def outlineLe (a b : HeadingCandidate) : Bool :=
  decide (a.page < b.page ∨ (a.page = b.page ∧ b.confidence ≤ a.confidence))

/-- `PDFProcessor.filter_and_rank_headings_improved`: deduplicate by the exact
`(title, page)` key keeping the strictly-higher-confidence duplicate, sort by
`(page, -confidence)`, keep only `confidence > 0.7` entries (`7` in tenths)
when more than 25 survive and at least 10 such entries exist, truncate to 25,
and project away confidence and original text. -/
def filter_and_rank_headings_improved (outline : List HeadingCandidate) : List OutlineEntry :=
  if outline.isEmpty then []
  else
    let filtered := outline.foldl update_seen []
    let sorted := insSort outlineLe filtered
    let final_src :=
      if 25 < sorted.length then
        let high := sorted.filter (fun i => decide ((7 : ℤ) < i.confidence))
        if 10 ≤ high.length then high else sorted
      else sorted
    (final_src.take 25).map (fun i => { title := i.title, level := i.level, page := i.page })

/-- `PDFProcessor.detect_headings`: collect every element's font size, compute
the dynamic thresholds, run the candidate loop, and reduce. -/
def detect_headings (pages_data : List PageData) : Except String (List OutlineEntry) :=
  let font_sizes_seen := (pages_data.map (fun p => p.text_elements.map (·.font_size))).flatten
  let th := calculate_dynamic_font_thresholds font_sizes_seen
  match detect_headings_candidates th pages_data with
  | .error s => .error s
  | .ok cands => .ok (filter_and_rank_headings_improved cands)

/-- The candidate-collection loop of `extract_title` over the first ten
elements of the first page. -/
def title_loop (cands : List (List Char × ℤ)) : List TextElement → List (List Char × ℤ)
  | [] => cands
  | e :: es =>
    let text := pyStrip e.text
    if text.length < 3 ||
        (["page", "of", "the", "and"].map String.toList).contains (lowerL text) then
      title_loop cands es
    else if 16 ≤ e.font_size || cands.isEmpty then
      title_loop (cands ++ [(text, e.font_size)]) es
    else
      title_loop cands es

/-- `PDFProcessor.extract_title`: the collected candidate with the largest
font size (stable descending sort, first occurrence wins ties), with the
`"Untitled Document"` fallback. -/
def extract_title (pages_data : List PageData) : List Char :=
  match pages_data with
  | [] => "Untitled Document".toList
  | first :: _ =>
    let cands := title_loop [] (first.text_elements.take 10)
    match insSort (fun a b => decide (b.2 ≤ a.2)) cands with
    | (t, _) :: _ => t
    | [] => "Untitled Document".toList

/-- The metadata record of `extract_document_metadata`. -/
structure DocMetadata where
  total_pages : Nat
  estimated_word_count : Nat
  language : List Char
deriving DecidableEq

/-- `PDFProcessor.extract_document_metadata`. -/
def extract_document_metadata (pages_data : List PageData) : DocMetadata :=
  { total_pages := pages_data.length,
    estimated_word_count :=
      ((pages_data.map (fun p => p.text_elements.map (fun e => (wsTokens e.text).length))).flatten).sum,
    language := "en".toList }

/-- The result dictionary of `process_single_pdf`: `metadata`, `key_phrases`
and `important_fields` are optional keys (`none` when the key is absent). -/
structure DocumentSummary where
  title : List Char
  outline : List OutlineEntry
  metadata : Option DocMetadata
  key_phrases : Option (List (List Char))
  important_fields : Option (List (List Char × List (List Char)))
deriving DecidableEq

/-- The core of `PDFProcessor.process_single_pdf`, taking the page source's
output `pages_data` as input (text extraction is the out-of-scope collaborator).
`extract_important_fields` and `extract_key_phrases` are taken as parameters:
both return `list(set(...))`, whose element order depends on the interpreter's
string-hash randomization, so they have no deterministic model; the fields
dictionary is passed as an association list of non-empty categories, and the
`important_fields` key is added only when it is non-empty (truthy). -/
def process_single_pdf
    (fieldsOf : List PageData → List (List Char × List (List Char)))
    (phrasesOf : List PageData → List (List Char))
    (pages_data : List PageData) : Except String DocumentSummary :=
  if pages_data.isEmpty then
    .ok { title := "Error: Could not process PDF".toList, outline := [],
          metadata := none, key_phrases := none, important_fields := none }
  else
    let title := extract_title pages_data
    match detect_headings pages_data with
    | .error s => .error s
    | .ok outline =>
      let metadata := extract_document_metadata pages_data
      let important_fields := fieldsOf pages_data
      let key_phrases := phrasesOf pages_data
      .ok { title := title, outline := outline,
            metadata := some metadata, key_phrases := some key_phrases,
            important_fields :=
              if important_fields.isEmpty then none else some important_fields }

/-! ## Auxiliary lemmas -/

theorem pyStrip_length_le (l : List Char) : (pyStrip l).length ≤ l.length := by
  have h1 := (List.dropWhile_sublist (l := l) isPySpace).length_le
  have h2 := (List.dropWhile_sublist (l := (l.dropWhile isPySpace).reverse) isPySpace).length_le
  unfold pyStrip
  simp only [List.length_reverse] at *
  omega

theorem clean_length_le_200 (t : List Char) :
    (clean_heading_text_improved t).length ≤ 200 := by
  unfold clean_heading_text_improved
  split
  · simp
  · dsimp only
    split
    · simp
    · rename_i h
      have := pyStrip_length_le (clean_steps t)
      omega

theorem mem_insertDesc {a x : ℤ} {l : List ℤ} : a ∈ insertDesc x l ↔ a = x ∨ a ∈ l := by
  induction l with
  | nil => simp [insertDesc]
  | cons y ys ih =>
    unfold insertDesc
    split_ifs with h1 h2
    · simp [List.mem_cons]
    · subst h2
      simp [List.mem_cons]
    · simp [List.mem_cons, ih]
      tauto

theorem pairwise_insertDesc {x : ℤ} {l : List ℤ} (h : l.Pairwise (· > ·)) :
    (insertDesc x l).Pairwise (· > ·) := by
  induction l with
  | nil => simp [insertDesc]
  | cons y ys ih =>
    rw [List.pairwise_cons] at h
    obtain ⟨hy, hys⟩ := h
    unfold insertDesc
    split_ifs with h1 h2
    · refine List.Pairwise.cons ?_ (List.Pairwise.cons hy hys)
      intro b hb
      rcases List.mem_cons.mp hb with rfl | hb
      · exact h1
      · exact lt_trans (hy b hb) h1
    · exact List.Pairwise.cons hy hys
    · have hxy : x < y := lt_of_le_of_ne (not_lt.mp h1) h2
      refine List.Pairwise.cons ?_ (ih hys)
      intro b hb
      rcases mem_insertDesc.mp hb with rfl | hb
      · exact hxy
      · exact hy b hb

theorem pairwise_sortedDistinctDesc (l : List ℤ) :
    (sortedDistinctDesc l).Pairwise (· > ·) := by
  induction l with
  | nil => simp [sortedDistinctDesc]
  | cons a t ih => exact pairwise_insertDesc ih

theorem mem_sortedDistinctDesc {a : ℤ} {l : List ℤ} :
    a ∈ sortedDistinctDesc l ↔ a ∈ l := by
  induction l with
  | nil => simp [sortedDistinctDesc]
  | cons b t ih =>
    show a ∈ insertDesc b (sortedDistinctDesc t) ↔ _
    rw [mem_insertDesc, ih]
    simp [List.mem_cons]

theorem sortedDistinctDesc_eq_nil {l : List ℤ} :
    sortedDistinctDesc l = [] ↔ l = [] := by
  constructor
  · intro h
    cases l with
    | nil => rfl
    | cons a t =>
      exfalso
      have : a ∈ sortedDistinctDesc (a :: t) := mem_sortedDistinctDesc.mpr (by simp)
      rw [h] at this
      simp at this
  · intro h
    subst h
    rfl

theorem nodup_sortedDistinctDesc (l : List ℤ) : (sortedDistinctDesc l).Nodup :=
  (pairwise_sortedDistinctDesc l).imp (fun h => ne_of_gt h)

theorem length_sortedDistinctDesc (l : List ℤ) :
    (sortedDistinctDesc l).length = l.toFinset.card := by
  have h1 : (sortedDistinctDesc l).toFinset = l.toFinset := by
    ext a
    simp [List.mem_toFinset, mem_sortedDistinctDesc]
  rw [← h1, List.toFinset_card_of_nodup (nodup_sortedDistinctDesc l)]

theorem foldl_maxZ_of_le (t : List ℤ) : ∀ a : ℤ, (∀ b ∈ t, b ≤ a) → t.foldl maxZ a = a := by
  induction t with
  | nil =>
    intro a _
    rfl
  | cons b t ih =>
    intro a h
    have hb : b ≤ a := h b (by simp)
    have hm : maxZ a b = a := by
      unfold maxZ
      split_ifs with h2 <;> omega
    rw [List.foldl_cons, hm]
    exact ih a (fun c hc => h c (by simp [hc]))

/-! ## Claim theorems -/

/-- C1: if the page source reports zero pages or fails (`pages_data = []`),
`process_single_pdf` returns exactly the sentinel summary
`{title: "Error: Could not process PDF", outline: []}` with no `metadata`,
`key_phrases` or `important_fields` keys, whatever the auxiliary extractors
would do. -/
theorem claim_C1_empty_pages_sentinel
    (fieldsOf : List PageData → List (List Char × List (List Char)))
    (phrasesOf : List PageData → List (List Char)) :
    process_single_pdf fieldsOf phrasesOf [] =
      Except.ok { title := "Error: Could not process PDF".toList, outline := [],
                  metadata := none, key_phrases := none, important_fields := none } := rfl

/-- C5: the outline produced by `filter_and_rank_headings_improved` never has
more than 25 entries. -/
theorem claim_C5_outline_bound (outline : List HeadingCandidate) :
    (filter_and_rank_headings_improved outline).length ≤ 25 := by
  unfold filter_and_rank_headings_improved
  split
  · simp
  · dsimp only
    split <;> simp [List.length_take]

set_option maxHeartbeats 2000000 in
/-- C7: the fragment merger joins `["Contact us at", "info@example.com for details."]`
into the single logical line `"Contact us at info@example.com for details."`
with a single-space separator, and the incomplete-predecessor trigger indeed
fires on `"Contact us at"`. -/
theorem claim_C7_merge_contact :
    merge_fragmented_lines
        ["Contact us at".toList, "info@example.com for details.".toList] =
      ["Contact us at info@example.com for details.".toList] ∧
    is_incomplete_line "Contact us at".toList = true := by decide

/-- C10: the confidence returned by `calculate_heading_confidence` always lies
in `[0.5, 1.0]` (in the tenths model: between 5 and 10): the base 0.5 is only
increased by non-negative bonuses and capped at 1.0. -/
theorem claim_C10_confidence_range (text : List Char) (font_size : ℤ) (th : FontThresholds) :
    5 ≤ calculate_heading_confidence text font_size th ∧
    calculate_heading_confidence text font_size th ≤ 10 := by
  have hmin : ∀ x : ℤ, 5 ≤ x → 5 ≤ minZ 10 x ∧ minZ 10 x ≤ 10 := by
    intro x hx
    unfold minZ
    split_ifs with h <;> omega
  simp only [calculate_heading_confidence]
  apply hmin
  split_ifs <;> norm_num

/-- C6: for any non-empty list of emphasis scores the dynamic thresholds
satisfy H1 ≥ H2 ≥ H3. -/
theorem claim_C6_thresholds_monotone (font_sizes : List ℤ) (h : font_sizes ≠ []) :
    (calculate_dynamic_font_thresholds font_sizes).H2 ≤
      (calculate_dynamic_font_thresholds font_sizes).H1 ∧
    (calculate_dynamic_font_thresholds font_sizes).H3 ≤
      (calculate_dynamic_font_thresholds font_sizes).H2 := by
  have hne : font_sizes.isEmpty = false := by
    simpa [List.isEmpty_iff] using h
  have hp := pairwise_sortedDistinctDesc font_sizes
  unfold calculate_dynamic_font_thresholds
  rcases hs : sortedDistinctDesc font_sizes with _ | ⟨a, _ | ⟨b, _ | ⟨c, rest⟩⟩⟩
  · exact absurd (sortedDistinctDesc_eq_nil.mp hs) h
  · rw [hs] at hp
    simp only [hne, Bool.false_eq_true, if_false, hs, pyMax]
    constructor <;> linarith
  · rw [hs] at hp
    rw [List.pairwise_cons] at hp
    have hab : b < a := hp.1 b (by simp)
    have hmax : maxZ a b = a := by
      unfold maxZ
      split_ifs with h2 <;> linarith
    simp only [hne, Bool.false_eq_true, if_false, hs, pyMax, List.foldl_cons, List.foldl_nil, hmax]
    constructor <;> linarith
  · rw [hs] at hp
    rw [List.pairwise_cons] at hp
    have hab : b < a := hp.1 b (by simp)
    have hbc : c < b := by
      have := hp.2
      rw [List.pairwise_cons] at this
      exact this.1 c (by simp)
    simp only [hne, Bool.false_eq_true, if_false, hs]
    constructor <;> linarith

/-- C6 witness: the monotonicity theorem applied to the concrete score list
`[12, 10]`. -/
theorem claim_C6_thresholds_monotone_witness :
    ([(12 : ℤ), 10] ≠ []) ∧
    ((calculate_dynamic_font_thresholds [(12 : ℤ), 10]).H2 ≤
        (calculate_dynamic_font_thresholds [(12 : ℤ), 10]).H1 ∧
      (calculate_dynamic_font_thresholds [(12 : ℤ), 10]).H3 ≤
        (calculate_dynamic_font_thresholds [(12 : ℤ), 10]).H2) :=
  ⟨by decide, claim_C6_thresholds_monotone [(12 : ℤ), 10] (by decide)⟩

/-- C3 counterexample: on the two-distinct-score list `[12, 10]` the code
returns H2 = 11 and H3 = 10, while the claim's reading (second-largest
distinct, i.e. 10, and H2 − 1, i.e. 9) differs: with fewer than three distinct
scores the code falls into the `max, max−1, max−2` branch. -/
theorem claim_C3_counterexample :
    calculate_dynamic_font_thresholds [12, 10] ≠ spec_dynamic_font_thresholds [12, 10] ∧
    calculate_dynamic_font_thresholds [12, 10] = { H1 := 12, H2 := 11, H3 := 10 } ∧
    spec_dynamic_font_thresholds [12, 10] = { H1 := 12, H2 := 10, H3 := 9 } := by decide

/-- C3 amended: the empty list yields the fallback `{14, 12, 11}`; for a
non-empty list H1 is the largest score; when at least three distinct scores
exist, H2 and H3 are the second- and third-largest distinct scores; when fewer
than three distinct scores exist, H2 = H1 − 1 and H3 = H1 − 2 (this last
branch is where the code differs from the claim). -/
theorem claim_C3_amended (font_sizes : List ℤ) (h : font_sizes ≠ []) :
    calculate_dynamic_font_thresholds [] = { H1 := 14, H2 := 12, H3 := 11 } ∧
    ((calculate_dynamic_font_thresholds font_sizes).H1 ∈ font_sizes ∧
      ∀ x ∈ font_sizes, x ≤ (calculate_dynamic_font_thresholds font_sizes).H1) ∧
    (3 ≤ font_sizes.toFinset.card →
      ((calculate_dynamic_font_thresholds font_sizes).H2 ∈ font_sizes ∧
        (calculate_dynamic_font_thresholds font_sizes).H2 <
          (calculate_dynamic_font_thresholds font_sizes).H1 ∧
        ∀ x ∈ font_sizes, x < (calculate_dynamic_font_thresholds font_sizes).H1 →
          x ≤ (calculate_dynamic_font_thresholds font_sizes).H2) ∧
      ((calculate_dynamic_font_thresholds font_sizes).H3 ∈ font_sizes ∧
        (calculate_dynamic_font_thresholds font_sizes).H3 <
          (calculate_dynamic_font_thresholds font_sizes).H2 ∧
        ∀ x ∈ font_sizes, x < (calculate_dynamic_font_thresholds font_sizes).H2 →
          x ≤ (calculate_dynamic_font_thresholds font_sizes).H3)) ∧
    (font_sizes.toFinset.card < 3 →
      (calculate_dynamic_font_thresholds font_sizes).H2 =
        (calculate_dynamic_font_thresholds font_sizes).H1 - 1 ∧
      (calculate_dynamic_font_thresholds font_sizes).H3 =
        (calculate_dynamic_font_thresholds font_sizes).H1 - 2) := by
  have hne : font_sizes.isEmpty = false := by
    simpa [List.isEmpty_iff] using h
  have hp := pairwise_sortedDistinctDesc font_sizes
  have hcard : font_sizes.toFinset.card = (sortedDistinctDesc font_sizes).length :=
    (length_sortedDistinctDesc font_sizes).symm
  have hmem : ∀ x, x ∈ sortedDistinctDesc font_sizes ↔ x ∈ font_sizes :=
    fun x => mem_sortedDistinctDesc
  refine ⟨rfl, ?_⟩
  unfold calculate_dynamic_font_thresholds
  rcases hs : sortedDistinctDesc font_sizes with _ | ⟨a, _ | ⟨b, _ | ⟨c, rest⟩⟩⟩
  · exact absurd (sortedDistinctDesc_eq_nil.mp hs) h
  · rw [hs] at hp hcard
    simp only [List.length_cons, List.length_nil] at hcard
    simp only [hne, Bool.false_eq_true, if_false, hs, pyMax, List.foldl_nil]
    have ha : a ∈ font_sizes := (hmem a).mp (hs ▸ (by simp))
    have hmax : ∀ x ∈ font_sizes, x ≤ a := by
      intro x hx
      have : x ∈ sortedDistinctDesc font_sizes := (hmem x).mpr hx
      rw [hs] at this
      simp at this
      omega
    refine ⟨⟨ha, hmax⟩, ?_, ?_⟩
    · intro h3
      omega
    · intro _
      constructor <;> trivial
  · rw [hs] at hp hcard
    rw [List.pairwise_cons] at hp
    have hab : b < a := hp.1 b (by simp)
    have hmaxZ : maxZ a b = a := by
      unfold maxZ
      split_ifs with h2 <;> linarith
    simp only [List.length_cons, List.length_nil] at hcard
    simp only [hne, Bool.false_eq_true, if_false, hs, pyMax, List.foldl_cons, List.foldl_nil,
      hmaxZ]
    have ha : a ∈ font_sizes := (hmem a).mp (hs ▸ (by simp))
    have hmax : ∀ x ∈ font_sizes, x ≤ a := by
      intro x hx
      have : x ∈ sortedDistinctDesc font_sizes := (hmem x).mpr hx
      rw [hs] at this
      simp at this
      rcases this with rfl | rfl
      · omega
      · omega
    refine ⟨⟨ha, hmax⟩, ?_, ?_⟩
    · intro h3
      omega
    · intro _
      constructor <;> trivial
  · rw [hs] at hp hcard
    rw [List.pairwise_cons] at hp
    obtain ⟨hafirst, hptail⟩ := hp
    rw [List.pairwise_cons] at hptail
    obtain ⟨hbfirst, hptail2⟩ := hptail
    rw [List.pairwise_cons] at hptail2
    obtain ⟨hcfirst, _⟩ := hptail2
    have hab : b < a := hafirst b (by simp)
    have hac : c < a := hafirst c (by simp)
    have hbc : c < b := hbfirst c (by simp)
    simp only [List.length_cons] at hcard
    simp only [hne, Bool.false_eq_true, if_false, hs]
    have ha : a ∈ font_sizes := (hmem a).mp (hs ▸ (by simp))
    have hb : b ∈ font_sizes := (hmem b).mp (hs ▸ (by simp))
    have hc : c ∈ font_sizes := (hmem c).mp (hs ▸ (by simp))
    have hmax : ∀ x ∈ font_sizes, x ≤ a := by
      intro x hx
      have hxs : x ∈ sortedDistinctDesc font_sizes := (hmem x).mpr hx
      rw [hs] at hxs
      rcases List.mem_cons.mp hxs with rfl | hxs
      · omega
      · have := hafirst x hxs
        omega
    have hsnd : ∀ x ∈ font_sizes, x < a → x ≤ b := by
      intro x hx hxa
      have hxs : x ∈ sortedDistinctDesc font_sizes := (hmem x).mpr hx
      rw [hs] at hxs
      rcases List.mem_cons.mp hxs with rfl | hxs
      · omega
      · rcases List.mem_cons.mp hxs with rfl | hxs
        · omega
        · have := hbfirst x hxs
          omega
    have hthd : ∀ x ∈ font_sizes, x < b → x ≤ c := by
      intro x hx hxb
      have hxs : x ∈ sortedDistinctDesc font_sizes := (hmem x).mpr hx
      rw [hs] at hxs
      rcases List.mem_cons.mp hxs with rfl | hxs
      · omega
      · rcases List.mem_cons.mp hxs with rfl | hxs
        · omega
        · rcases List.mem_cons.mp hxs with rfl | hxs
          · omega
          · have := hcfirst x hxs
            omega
    refine ⟨⟨ha, hmax⟩, ?_, ?_⟩
    · intro _
      exact ⟨⟨hb, hab, hsnd⟩, ⟨hc, hbc, hthd⟩⟩
    · intro hlt
      omega

/-- C3 witness: the amended characterization applied to the concrete
two-distinct-score list `[12, 10]` (the branch with fewer than three distinct
scores). -/
theorem claim_C3_amended_witness :
    ([(12 : ℤ), 10] ≠ []) ∧
    (calculate_dynamic_font_thresholds [] = { H1 := 14, H2 := 12, H3 := 11 } ∧
    ((calculate_dynamic_font_thresholds [(12 : ℤ), 10]).H1 ∈ [(12 : ℤ), 10] ∧
      ∀ x ∈ [(12 : ℤ), 10], x ≤ (calculate_dynamic_font_thresholds [(12 : ℤ), 10]).H1) ∧
    (3 ≤ [(12 : ℤ), 10].toFinset.card →
      ((calculate_dynamic_font_thresholds [(12 : ℤ), 10]).H2 ∈ [(12 : ℤ), 10] ∧
        (calculate_dynamic_font_thresholds [(12 : ℤ), 10]).H2 <
          (calculate_dynamic_font_thresholds [(12 : ℤ), 10]).H1 ∧
        ∀ x ∈ [(12 : ℤ), 10], x < (calculate_dynamic_font_thresholds [(12 : ℤ), 10]).H1 →
          x ≤ (calculate_dynamic_font_thresholds [(12 : ℤ), 10]).H2) ∧
      ((calculate_dynamic_font_thresholds [(12 : ℤ), 10]).H3 ∈ [(12 : ℤ), 10] ∧
        (calculate_dynamic_font_thresholds [(12 : ℤ), 10]).H3 <
          (calculate_dynamic_font_thresholds [(12 : ℤ), 10]).H2 ∧
        ∀ x ∈ [(12 : ℤ), 10], x < (calculate_dynamic_font_thresholds [(12 : ℤ), 10]).H2 →
          x ≤ (calculate_dynamic_font_thresholds [(12 : ℤ), 10]).H3)) ∧
    ([(12 : ℤ), 10].toFinset.card < 3 →
      (calculate_dynamic_font_thresholds [(12 : ℤ), 10]).H2 =
        (calculate_dynamic_font_thresholds [(12 : ℤ), 10]).H1 - 1 ∧
      (calculate_dynamic_font_thresholds [(12 : ℤ), 10]).H3 =
        (calculate_dynamic_font_thresholds [(12 : ℤ), 10]).H1 - 2)) :=
  ⟨by decide, claim_C3_amended [(12 : ℤ), 10] (by decide)⟩

/-- C2 counterexample: two candidates whose titles are equal only
case-insensitively (`"Abc"` vs `"ABC"`) on the same page, with different
confidences, do NOT reduce to one entry: the reducer keys on the exact title
(`(item["title"], item["page"])`, no lowercasing), so both survive. -/
theorem claim_C2_counterexample :
    lowerL "Abc".toList = lowerL "ABC".toList ∧
    filter_and_rank_headings_improved
        [{ title := "Abc".toList, level := 1, page := 0, confidence := 9,
           original_text := "Abc".toList },
         { title := "ABC".toList, level := 1, page := 0, confidence := 8,
           original_text := "ABC".toList }] =
      [{ title := "Abc".toList, level := 1, page := 0 },
       { title := "ABC".toList, level := 1, page := 0 }] := by decide

/-- C2 amended: deduplication is by the exact `(title, page)` key: two
candidates with identical title (case-sensitively equal) and page and
differing confidence reduce, in either input order, to exactly one outline
entry, that of the higher-confidence candidate. -/
theorem claim_C2_amended (c1 c2 : HeadingCandidate)
    (ht : c1.title = c2.title) (hp : c1.page = c2.page)
    (hc : c1.confidence < c2.confidence) :
    filter_and_rank_headings_improved [c1, c2] =
      [{ title := c2.title, level := c2.level, page := c2.page }] ∧
    filter_and_rank_headings_improved [c2, c1] =
      [{ title := c2.title, level := c2.level, page := c2.page }] := by
  obtain ⟨t1, l1, p1, cf1, o1⟩ := c1
  obtain ⟨t2, l2, p2, cf2, o2⟩ := c2
  simp only at ht hp hc
  subst ht
  subst hp
  have hnc : ¬ (cf2 < cf1) := hc.asymm
  constructor
  · simp [filter_and_rank_headings_improved, update_seen, insSort, insertLe, hc]
  · simp [filter_and_rank_headings_improved, update_seen, insSort, insertLe, hnc]

/-- C2 witness: the amended deduplication theorem applied to two concrete
candidates sharing the exact key `("Heading", 2)` with confidences 6 and 8. -/
theorem claim_C2_amended_witness :
    filter_and_rank_headings_improved
        [{ title := "Heading".toList, level := 2, page := 2, confidence := 6,
           original_text := "Heading".toList },
         { title := "Heading".toList, level := 1, page := 2, confidence := 8,
           original_text := "Heading .".toList }] =
      [{ title := "Heading".toList, level := 1, page := 2 }] ∧
    filter_and_rank_headings_improved
        [{ title := "Heading".toList, level := 1, page := 2, confidence := 8,
           original_text := "Heading .".toList },
         { title := "Heading".toList, level := 2, page := 2, confidence := 6,
           original_text := "Heading".toList }] =
      [{ title := "Heading".toList, level := 1, page := 2 }] :=
  claim_C2_amended
    { title := "Heading".toList, level := 2, page := 2, confidence := 6,
      original_text := "Heading".toList }
    { title := "Heading".toList, level := 1, page := 2, confidence := 8,
      original_text := "Heading .".toList }
    (by decide) (by decide) (by decide)

/-- On a non-empty line the content classifier cannot raise: only the empty
string reaches the `text[0]` subscript error. -/
theorem content_ok_of_ne_nil {t : List Char} (h : t ≠ []) :
    ∃ c, classify_heading_by_content t = Except.ok c := by
  cases t with
  | nil => exact absurd rfl h
  | cons c cs =>
    unfold classify_heading_by_content
    dsimp only
    split_ifs <;> exact ⟨_, rfl⟩

/-- C4 counterexample: on the empty line text with a font size meeting H1, the
pattern classifier yields nothing and the size classifier yields level 1, yet
`classify_heading_improved` does not return level 1 — it raises the content
classifier's IndexError (`text[0]` on the empty string), because the content
classifier is evaluated unconditionally before the priority chain. -/
theorem claim_C4_counterexample :
    classify_heading_by_pattern_improved [] = none ∧
    font_size_level 20 { H1 := 14, H2 := 12, H3 := 11 } = some 1 ∧
    classify_heading_improved [] 20 { H1 := 14, H2 := 12, H3 := 11 } =
      Except.error "string index out of range" ∧
    classify_heading_improved [] 20 { H1 := 14, H2 := 12, H3 := 11 } ≠
      Except.ok (some 1) := by decide

/-- C4 amended: for every NON-EMPTY line text the strict priority
pattern > size > content holds: the pattern classifier's level wins whenever
it yields one; otherwise the size classifier's level; otherwise the result is
exactly the content classifier's (on the empty string the function instead
raises the content classifier's IndexError). -/
theorem claim_C4_amended (text : List Char) (font_size : ℤ) (th : FontThresholds)
    (h : text ≠ []) :
    (∀ l, classify_heading_by_pattern_improved text = some l →
        classify_heading_improved text font_size th = Except.ok (some l)) ∧
    (classify_heading_by_pattern_improved text = none →
      ∀ l, font_size_level font_size th = some l →
        classify_heading_improved text font_size th = Except.ok (some l)) ∧
    (classify_heading_by_pattern_improved text = none →
      font_size_level font_size th = none →
        classify_heading_improved text font_size th = classify_heading_by_content text) := by
  obtain ⟨c, hc⟩ := content_ok_of_ne_nil h
  refine ⟨?_, ?_, ?_⟩
  · intro l hpat
    simp [classify_heading_improved, hc, hpat]
  · intro hpat l hfont
    simp [classify_heading_improved, hc, hpat, hfont]
  · intro hpat hfont
    simp [classify_heading_improved, hc, hpat, hfont]

/-- C4 witness: the amended priority theorem applied to the concrete line
`"1.1 Overview"` (all three clauses instantiated; its pattern level is 2). -/
theorem claim_C4_amended_witness :
    (∀ l, classify_heading_by_pattern_improved "1.1 Overview".toList = some l →
        classify_heading_improved "1.1 Overview".toList 9 { H1 := 14, H2 := 12, H3 := 11 } =
          Except.ok (some l)) ∧
    (classify_heading_by_pattern_improved "1.1 Overview".toList = none →
      ∀ l, font_size_level 9 { H1 := 14, H2 := 12, H3 := 11 } = some l →
        classify_heading_improved "1.1 Overview".toList 9 { H1 := 14, H2 := 12, H3 := 11 } =
          Except.ok (some l)) ∧
    (classify_heading_by_pattern_improved "1.1 Overview".toList = none →
      font_size_level 9 { H1 := 14, H2 := 12, H3 := 11 } = none →
        classify_heading_improved "1.1 Overview".toList 9 { H1 := 14, H2 := 12, H3 := 11 } =
          classify_heading_by_content "1.1 Overview".toList) :=
  claim_C4_amended "1.1 Overview".toList 9 { H1 := 14, H2 := 12, H3 := 11 } (by decide)

/-- C9 counterexample: the single-line document `"AB."` is classified (size
classifier, level 1) and its cleaned title is `"AB"` of length exactly 2 —
inside the claimed kept range `[2, 200]` — yet the outline-building pass
discards it: `detect_headings` keeps a candidate only when the cleaned length
is strictly greater than 2. -/
theorem claim_C9_counterexample :
    classify_heading_improved (pyStrip "AB.".toList)
        (estimate_font_size_improved "AB.".toList)
        (calculate_dynamic_font_thresholds [estimate_font_size_improved "AB.".toList]) =
      Except.ok (some 1) ∧
    clean_heading_text_improved (pyStrip "AB.".toList) = "AB".toList ∧
    (clean_heading_text_improved (pyStrip "AB.".toList)).length = 2 ∧
    candidate_of_element
        (calculate_dynamic_font_thresholds [estimate_font_size_improved "AB.".toList]) 0
        { text := "AB.".toList, font_size := estimate_font_size_improved "AB.".toList } =
      Except.ok none ∧
    detect_headings
        [{ page_num := 0,
           text_elements :=
             [{ text := "AB.".toList, font_size := estimate_font_size_improved "AB.".toList }] }] =
      Except.ok [] := by decide

/-- C9 amended: a classified line (stripped length ≥ 3, classifier returns a
level) is kept as a heading candidate exactly when its cleaned title has
length ≥ 3; a cleaned length below 3 (in particular exactly 2) is discarded;
and a cleaned title never exceeds 200 characters. -/
theorem claim_C9_amended (th : FontThresholds) (page : ℤ) (e : TextElement) (lvl : Nat)
    (h3 : 3 ≤ (pyStrip e.text).length)
    (hcls : classify_heading_improved (pyStrip e.text) e.font_size th = Except.ok (some lvl)) :
    (candidate_of_element th page e =
        Except.ok (some
          { title := clean_heading_text_improved (pyStrip e.text), level := lvl, page := page,
            confidence := calculate_heading_confidence (pyStrip e.text) e.font_size th,
            original_text := pyStrip e.text })
      ↔ 3 ≤ (clean_heading_text_improved (pyStrip e.text)).length) ∧
    ((clean_heading_text_improved (pyStrip e.text)).length < 3 →
      candidate_of_element th page e = Except.ok none) ∧
    (clean_heading_text_improved (pyStrip e.text)).length ≤ 200 := by
  have hne : pyStrip e.text ≠ [] := by
    intro hnil
    rw [hnil] at h3
    simp at h3
  have hguard : ¬ ((pyStrip e.text).isEmpty = true ∨ (pyStrip e.text).length < 3) := by
    simp only [List.isEmpty_iff]
    push_neg
    exact ⟨hne, by omega⟩
  have h200 := clean_length_le_200 (pyStrip e.text)
  unfold candidate_of_element
  dsimp only
  rw [if_neg hguard, hcls]
  dsimp only
  by_cases hlen : 3 ≤ (clean_heading_text_improved (pyStrip e.text)).length
  · have hcne : clean_heading_text_improved (pyStrip e.text) ≠ [] := by
      intro hnil
      rw [hnil] at hlen
      simp at hlen
    have hcond : ¬(clean_heading_text_improved (pyStrip e.text)).isEmpty = true ∧
        2 < (clean_heading_text_improved (pyStrip e.text)).length := by
      constructor
      · simp only [List.isEmpty_iff]
        exact hcne
      · omega
    rw [if_pos hcond]
    refine ⟨by simp [hlen], ?_, h200⟩
    intro hlt
    omega
  · have hcond : ¬ (¬(clean_heading_text_improved (pyStrip e.text)).isEmpty = true ∧
        2 < (clean_heading_text_improved (pyStrip e.text)).length) := by
      intro hand
      exact hlen (by omega)
    rw [if_neg hcond]
    refine ⟨?_, fun _ => rfl, h200⟩
    constructor
    · intro heq
      exact absurd heq (by simp)
    · intro hge
      exact absurd hge hlen

/-- C9 witness: the amended keep/discard characterization applied to the
concrete classified line `"INTRODUCTION"` (cleaned length 12, kept). -/
theorem claim_C9_amended_witness :
    (3 ≤ (pyStrip "INTRODUCTION".toList).length) ∧
    ((candidate_of_element { H1 := 18, H2 := 17, H3 := 16 } 0
          { text := "INTRODUCTION".toList, font_size := 18 } =
        Except.ok (some
          { title := clean_heading_text_improved (pyStrip "INTRODUCTION".toList), level := 1,
            page := 0,
            confidence :=
              calculate_heading_confidence (pyStrip "INTRODUCTION".toList) 18
                { H1 := 18, H2 := 17, H3 := 16 },
            original_text := pyStrip "INTRODUCTION".toList })
      ↔ 3 ≤ (clean_heading_text_improved (pyStrip "INTRODUCTION".toList)).length) ∧
    ((clean_heading_text_improved (pyStrip "INTRODUCTION".toList)).length < 3 →
      candidate_of_element { H1 := 18, H2 := 17, H3 := 16 } 0
          { text := "INTRODUCTION".toList, font_size := 18 } = Except.ok none) ∧
    (clean_heading_text_improved (pyStrip "INTRODUCTION".toList)).length ≤ 200) :=
  ⟨by decide,
   claim_C9_amended { H1 := 18, H2 := 17, H3 := 16 } 0
     { text := "INTRODUCTION".toList, font_size := 18 } 1 (by decide) (by decide)⟩

set_option maxHeartbeats 2000000 in
/-- C8: for a document whose only line is `"INTRODUCTION"` on page 0, the
pattern classifier assigns level 1 via the uppercase pattern
(`^[A-Z][A-Z\\s]{10,}$`; the two preceding level-1 patterns do not match), the
full classifier returns level 1, the confidence is at least 0.8 (at least 8 in
tenths — it is in fact 1.0), and the resulting outline is exactly that single
level-1 entry on page 0. -/
theorem claim_C8_introduction_scenario :
    matchChapterNum "INTRODUCTION".toList = false ∧
    matchNumDotCap "INTRODUCTION".toList = false ∧
    matchAllCapsRun "INTRODUCTION".toList = true ∧
    classify_heading_by_pattern_improved "INTRODUCTION".toList = some 1 ∧
    classify_heading_improved "INTRODUCTION".toList
        (estimate_font_size_improved "INTRODUCTION".toList)
        (calculate_dynamic_font_thresholds
          [estimate_font_size_improved "INTRODUCTION".toList]) =
      Except.ok (some 1) ∧
    8 ≤ calculate_heading_confidence "INTRODUCTION".toList
        (estimate_font_size_improved "INTRODUCTION".toList)
        (calculate_dynamic_font_thresholds
          [estimate_font_size_improved "INTRODUCTION".toList]) ∧
    detect_headings
        [{ page_num := 0,
           text_elements :=
             [{ text := "INTRODUCTION".toList,
                font_size := estimate_font_size_improved "INTRODUCTION".toList }] }] =
      Except.ok [{ title := "INTRODUCTION".toList, level := 1, page := 0 }] := by decide

end ProcessPdfs
